import Mathlib

/-!
Verification of `map_converter.py` (node/link simulation data to GPSMap
converter).  The Python source is shallowly embedded: JSON values become an
inductive type, the filesystem becomes a function from paths to file
contents, Python dictionary/subscript/truthiness semantics become explicit
total functions, and Python exceptions become `Except` / explicit outcome
constructors.  An exception that the source catches is classified exactly
where the source's `except` clauses classify it; an exception raised outside
every `try` block surfaces as a `crashed` outcome of the whole conversion.
-/

namespace MapConverter

/-- JSON values as decoded by Python's `json.load`.  Numbers are modelled by
rationals (every JSON numeric literal denotes a rational; the only property
the program ever consumes from a number is comparison with zero for
truthiness, on which this model agrees with Python floats/ints except for
out-of-range literals that underflow, which never arise here). -/
inductive Json where
  | null : Json
  | bool : Bool → Json
  | num : Rat → Json
  | str : String → Json
  | arr : List Json → Json
  | obj : List (String × Json) → Json

/-- Python truthiness (`bool(x)`) of a decoded JSON value. -/
def truthy : Json → Bool
  | .null => false
  | .bool b => b
  | .num q => !(q == 0)
  | .str s => !(s == "")
  | .arr xs => !xs.isEmpty
  | .obj kvs => !kvs.isEmpty

/-- Lookup in a Python dict built by `json.load` from an association list:
on duplicate keys in the JSON text, the last occurrence wins. -/
def lookupLast (kvs : List (String × Json)) (k : String) : Option Json :=
  kvs.foldl (fun acc p => if p.1 = k then some p.2 else acc) none

/-- Exceptions that can escape the manifest-processing loop (they are raised
outside every `try` block of the source). -/
inductive PyErr where
  | typeError : PyErr
  | attributeError : PyErr

/-- Python `d.get(k, default)`: raises `AttributeError` when the receiver is
not a dict. -/
def pyGet (v : Json) (k : String) (dflt : Json) : Except PyErr Json :=
  match v with
  | .obj kvs => .ok ((lookupLast kvs k).getD dflt)
  | _ => .error .attributeError

/-- Result of a Python subscript `v[k]` with a string key. -/
inductive Subscr where
  | val : Json → Subscr
  | keyErr : Subscr
  | typeErr : Subscr

/-- Python subscript `v[k]` with a string key: `KeyError` on a dict missing
the key, `TypeError` on every non-dict receiver. -/
def pyIndex (v : Json) (k : String) : Subscr :=
  match v with
  | .obj kvs =>
      match lookupLast kvs k with
      | some x => .val x
      | none => .keyErr
  | _ => .typeErr

/-- Chained subscript `v[k1][k2][k3]`, propagating the first failure. -/
def pyIndex3 (v : Json) (k1 k2 k3 : String) : Subscr :=
  match pyIndex v k1 with
  | .val x =>
      match pyIndex x k2 with
      | .val y => pyIndex y k3
      | .keyErr => .keyErr
      | .typeErr => .typeErr
  | .keyErr => .keyErr
  | .typeErr => .typeErr

/-- `pat.isPrefixOf s` for character lists, decidably. -/
def isPre : List Char → List Char → Bool
  | [], _ => true
  | _ :: _, [] => false
  | c :: cs, d :: ds => c = d && isPre cs ds

/-- Substring containment, as Python's `needle in hay` on strings. -/
def containsSubL (pat : List Char) : List Char → Bool
  | [] => isPre pat []
  | c :: cs => isPre pat (c :: cs) || containsSubL pat cs

/-- Python `needle in hay` for strings. -/
def pyInStr (hay needle : String) : Bool :=
  containsSubL needle.data hay.data

/-- Python `x in container` where `x` is a string: key membership for dicts,
element equality for lists, substring for strings, `TypeError` otherwise. -/
def pyContains (container : Json) (x : String) : Except PyErr Bool :=
  match container with
  | .obj kvs => .ok (kvs.any (fun p => p.1 == x))
  | .arr xs => .ok (xs.any (fun v => match v with | .str s => s == x | _ => false))
  | .str s => .ok (pyInStr s x)
  | _ => .error .typeError

/-- Key list of a Python dict in insertion order (duplicates in the JSON
text collapse to the first position). -/
def dedupKeys (seen : List String) : List String → List String
  | [] => []
  | k :: r => if k ∈ seen then dedupKeys seen r else k :: dedupKeys (k :: seen) r

/-- Python `for x in v`: lists iterate elements, strings iterate one-character
strings, dicts iterate keys; every other JSON value raises `TypeError`. -/
def pyIter : Json → Except PyErr (List Json)
  | .arr xs => .ok xs
  | .str s => .ok (s.data.map (fun c => Json.str ⟨[c]⟩))
  | .obj kvs => .ok ((dedupKeys [] (kvs.map Prod.fst)).map Json.str)
  | _ => .error .typeError

/-! ## Model of Python `float(x)` (success or failure only; the program never
inspects the numeric value of the parsed float, so the parsed value is
carried as the original JSON token). -/

/-- A nonempty digit run in which single underscores may separate digits
(Python numeric-literal underscore rule), continuing after a first digit. -/
def digitsTail : List Char → Bool
  | [] => true
  | '_' :: d :: r => d.isDigit && digitsTail r
  | '_' :: [] => false
  | c :: r => c.isDigit && digitsTail r

/-- A nonempty underscore-separated digit run. -/
def digitRun : List Char → Bool
  | [] => false
  | c :: r => c.isDigit && digitsTail r

/-- Split a character list at the first occurrence of `c`. -/
def splitOnce (c : Char) : List Char → Option (List Char × List Char)
  | [] => none
  | d :: r =>
      if d = c then some ([], r)
      else match splitOnce c r with
           | some (a, b) => some (d :: a, b)
           | none => none

/-- Exponent part of a float literal: optional sign then digits. -/
def expOk : List Char → Bool
  | '+' :: r => digitRun r
  | '-' :: r => digitRun r
  | r => digitRun r

/-- Mantissa of a float literal: `digits [. [digits]]` or `. digits`. -/
def mantissaOk (m : List Char) : Bool :=
  match splitOnce '.' m with
  | none => digitRun m
  | some (i, f) =>
      (digitRun i && (f.isEmpty || digitRun f)) || (i.isEmpty && digitRun f)

/-- Numeric (non-inf/nan) float literal body. -/
def floatNumeric (cs : List Char) : Bool :=
  match splitOnce 'e' cs with
  | none => mantissaOk cs
  | some (m, ex) => mantissaOk m && expOk ex

/-- Float literal body after sign removal and lowercasing. -/
def floatCore (cs : List Char) : Bool :=
  cs = "inf".data || cs = "infinity".data || cs = "nan".data || floatNumeric cs

def isPyWs (c : Char) : Bool :=
  c = ' ' || c = '\t' || c = '\n' || c = '\r' || c = '\x0b' || c = '\x0c'

/-- Does Python `float(s)` succeed on the string `s`?  (ASCII model of the
CPython string-to-float grammar: strip whitespace, optional sign, then a
numeric literal or inf/infinity/nan, case-insensitively.) -/
def floatParseable (s : String) : Bool :=
  let t := (((s.data.dropWhile isPyWs).reverse.dropWhile isPyWs).reverse).map Char.toLower
  match t with
  | '+' :: r => floatCore r
  | '-' :: r => floatCore r
  | r => floatCore r

/-- Outcome of Python `float(x)` on a JSON value: numbers and booleans
convert, strings convert when parseable (`ValueError` otherwise), every
other value raises `TypeError`. -/
inductive FloatRes where
  | ok : FloatRes
  | valueErr : FloatRes
  | typeErr : FloatRes

def pyFloat : Json → FloatRes
  | .num _ => .ok
  | .bool _ => .ok
  | .str s => if floatParseable s then .ok else .valueErr
  | _ => .typeErr

/-! ## Record extraction (lines 77-92 and 116-153 of the source) -/

/-- An output vertex, as built at lines 79-85 of the source.  Coordinate and
identifier fields hold whatever JSON value the record held: the source copies
them verbatim with no parsing. -/
structure Vertex where
  id : Json
  classType : Json
  resourceId : Json
  latitude : Json
  longitude : Json

/-- The nested `label` object of an output edge (lines 136-141). -/
structure EdgeLabel where
  id : Json
  resourceId : Json
  classType : Json
  length : Json

/-- An output edge (lines 132-142).  `weight` and `label.length` both hold
the value passed through `float(...)`; since the program never inspects the
numeric value, the original JSON token stands for the parsed float. -/
structure Edge where
  source_id : Json
  target_id : Json
  weight : Json
  label : EdgeLabel

/-- How building one vertex can fail: `KeyError` is caught at line 87 and
recorded in the key-error bucket, any other exception is caught at line 91
and only printed. -/
inductive NodeFail where
  | keyError : NodeFail
  | other : NodeFail

/-- Build a vertex from one node record (lines 79-85).  Subscript order
follows the source's dict literal: `id`, `typeActor`, then the
`data`/`content`/`latitude` chain, then the `data`/`content`/`longitude`
chain. -/
def mkVertex (resourceId : Json) (node : Json) : Except NodeFail Vertex :=
  match pyIndex node "id" with
  | .keyErr => .error .keyError
  | .typeErr => .error .other
  | .val i =>
  match pyIndex node "typeActor" with
  | .keyErr => .error .keyError
  | .typeErr => .error .other
  | .val ty =>
  match pyIndex3 node "data" "content" "latitude" with
  | .keyErr => .error .keyError
  | .typeErr => .error .other
  | .val lat =>
  match pyIndex3 node "data" "content" "longitude" with
  | .keyErr => .error .keyError
  | .typeErr => .error .other
  | .val lon => .ok ⟨i, ty, resourceId, lat, lon⟩

/-- How processing one link record ends (lines 117-153): a built edge; a
silent skip at line 130 when an endpoint is falsy; a `KeyError` (line 144)
or `ValueError` (line 148), both appended to the key-error bucket; or any
other exception (line 152), which is only printed. -/
inductive LinkOutcome where
  | edge : Edge → LinkOutcome
  | missingEndpoint : LinkOutcome
  | keyError : LinkOutcome
  | valueError : LinkOutcome
  | other : LinkOutcome

/-- Endpoint resolution for one side of a link (lines 120-123): the value at
`data.content.<k>`, or — when that value is falsy — the value at
`dependencies.<k>.id`.  `.get` chains default missing keys but raise
`AttributeError` on non-dict receivers; the fallback chain is only evaluated
when the primary value is falsy (Python `or`). -/
def endpointOf (link : Json) (k : String) : Except PyErr Json :=
  match pyGet link "data" (.obj []) with
  | .error er => .error er
  | .ok d =>
  match pyGet d "content" (.obj []) with
  | .error er => .error er
  | .ok c =>
  match pyGet c k .null with
  | .error er => .error er
  | .ok prim =>
  if truthy prim then .ok prim
  else
    match pyGet link "dependencies" (.obj []) with
    | .error er => .error er
    | .ok dep =>
    match pyGet dep k (.obj []) with
    | .error er => .error er
    | .ok n => pyGet n "id" .null

/-- Process one link record (lines 117-143), in source evaluation order:
both endpoints, then `link["id"]`, then `link["data"]["content"]["length"]`,
then `float(length)`, then the falsy-endpoint check, then the edge. -/
def mkEdge (resourceId classType : Json) (link : Json) : LinkOutcome :=
  match endpointOf link "from_node" with
  | .error _ => .other
  | .ok src =>
  match endpointOf link "to_node" with
  | .error _ => .other
  | .ok tgt =>
  match pyIndex link "id" with
  | .keyErr => .keyError
  | .typeErr => .other
  | .val lid =>
  match pyIndex3 link "data" "content" "length" with
  | .keyErr => .keyError
  | .typeErr => .other
  | .val len =>
  match pyFloat len with
  | .valueErr => .valueError
  | .typeErr => .other
  | .ok =>
  if !truthy src || !truthy tgt then .missingEndpoint
  else .edge ⟨src, tgt, len, ⟨lid, resourceId, classType, len⟩⟩

/-! ## Error accumulation state (lines 17-23) -/

/-- The two kinds of messages the source appends to its `key_errors` list:
missing-key messages (lines 90 and 147) and failed float conversions
(line 151). -/
inductive KeyErrKind where
  | missingKey : KeyErrKind
  | badFloat : KeyErrKind

/-- The accumulating state of one conversion run: the vertex and edge
sequences and the three labeled error buckets (`files_not_found`,
`json_errors`, `key_errors`); the first two buckets are modelled by their
message counts, the key-error bucket keeps the kind of each message. -/
structure ConvState where
  vertices : List Vertex
  edges : List Edge
  filesNotFound : Nat
  jsonErrors : Nat
  keyErrors : List KeyErrKind

def initState : ConvState := ⟨[], [], 0, 0, []⟩

/-- One step of the node-record loop (lines 77-92). -/
def stepNode (rid : Json) (st : ConvState) (node : Json) : ConvState :=
  match mkVertex rid node with
  | .ok v => { st with vertices := st.vertices ++ [v] }
  | .error .keyError => { st with keyErrors := st.keyErrors ++ [.missingKey] }
  | .error .other => st

/-- The node-record loop over one file's record list. -/
def processNodes (rid : Json) (recs : List Json) (st : ConvState) : ConvState :=
  recs.foldl (stepNode rid) st

/-- One step of the link-record loop (lines 116-153). -/
def stepLink (rid ct : Json) (st : ConvState) (link : Json) : ConvState :=
  match mkEdge rid ct link with
  | .edge e => { st with edges := st.edges ++ [e] }
  | .keyError => { st with keyErrors := st.keyErrors ++ [.missingKey] }
  | .valueError => { st with keyErrors := st.keyErrors ++ [.badFloat] }
  | .missingEndpoint => st
  | .other => st

/-- The link-record loop over one file's record list. -/
def processLinks (rid ct : Json) (recs : List Json) (st : ConvState) : ConvState :=
  recs.foldl (stepLink rid ct) st

/-! ## Filesystem model and file-level processing -/

/-- What opening and JSON-decoding a path can yield: the file is missing
(`FileNotFoundError`), it exists but its text is not valid JSON
(`json.JSONDecodeError`), reading raises some other exception
(e.g. `PermissionError`), or it decodes to a JSON value. -/
inductive FileContent where
  | missing : FileContent
  | invalidJson : FileContent
  | readError : FileContent
  | content : Json → FileContent

def FS : Type := String → FileContent

/-- Process one node file (lines 68-103): missing file and bad JSON are
bucketed, any other read failure is only printed, a non-list top-level value
skips the file, and a list is fed to the node-record loop.  A non-string
path makes `open` raise (`TypeError`/`OSError`), caught by the generic
handler at line 102. -/
def processNodeFile (fs : FS) (rid filePath : Json) (st : ConvState) : ConvState :=
  match filePath with
  | .str p =>
      match fs p with
      | .missing => { st with filesNotFound := st.filesNotFound + 1 }
      | .invalidJson => { st with jsonErrors := st.jsonErrors + 1 }
      | .readError => st
      | .content (.arr recs) => processNodes rid recs st
      | .content _ => st
  | _ => st

/-- Process one link file (lines 107-164), same failure classification as
node files. -/
def processLinkFile (fs : FS) (rid ct filePath : Json) (st : ConvState) : ConvState :=
  match filePath with
  | .str p =>
      match fs p with
      | .missing => { st with filesNotFound := st.filesNotFound + 1 }
      | .invalidJson => { st with jsonErrors := st.jsonErrors + 1 }
      | .readError => st
      | .content (.arr recs) => processLinks rid ct recs st
      | .content _ => st
  | _ => st

/-! ## Path mapping (lines 54-64) and entry processing (lines 44-167) -/

/-- Truthiness of an optional CLI string argument (`None` or its value). -/
def optTruthy : Option String → Bool
  | none => false
  | some s => !(s == "")

/-- Python `s.replace(pat, rep, 1)` on character lists: replace the first
occurrence of `pat` (an empty `pat` matches at position 0). -/
def replFirstL (pat rep : List Char) : List Char → List Char
  | [] => if pat.isEmpty then rep else []
  | c :: cs => if isPre pat (c :: cs) then rep ++ (c :: cs).drop pat.length
               else c :: replFirstL pat rep cs

def pyReplaceFirst (s pat rep : String) : String :=
  ⟨replFirstL pat.data rep.data s.data⟩

def pyStartsWith (s pre : String) : Bool :=
  isPre pre.data s.data

/-- Path resolution for one entry (lines 55-64): when both prefixes are
truthy and the raw path starts with the docker one, replace the first
occurrence of the docker value by the host value, else keep the raw
path. -/
def resolvePath (dockerPre hostPre : Option String) (p : String) : String :=
  if optTruthy dockerPre && optTruthy hostPre && pyStartsWith p (dockerPre.getD "") then
    pyReplaceFirst p (dockerPre.getD "") (hostPre.getD "")
  else p

/-- The mapping block applied to the raw `path` JSON value: `startswith` is
only reached when both prefixes are truthy, and raises `AttributeError` on a
non-string path (uncaught in the source). -/
def mapPath (dockerPre hostPre : Option String) (origPath : Json) : Except PyErr Json :=
  if optTruthy dockerPre && optTruthy hostPre then
    match origPath with
    | .str p => .ok (.str (resolvePath dockerPre hostPre p))
    | _ => .error .attributeError
  else .ok origPath

def nodeTag : String := "mobility.actor.Node"

def linkTag : String := "mobility.actor.Link"

/-- The per-entry field extraction (lines 45-48): `classType` (default ""),
`id` (default None), `dataSource`/`info`/`path` chain (defaults {} and
None).  These `.get` calls sit outside every `try`, so an `AttributeError`
from a non-dict receiver escapes the function. -/
def entryFields (e : Json) : Except PyErr (Json × Json × Json) :=
  match pyGet e "classType" (.str "") with
  | .error er => .error er
  | .ok ct =>
  match pyGet e "id" .null with
  | .error er => .error er
  | .ok rid =>
  match pyGet e "dataSource" (.obj []) with
  | .error er => .error er
  | .ok ds =>
  match pyGet ds "info" (.obj []) with
  | .error er => .error er
  | .ok info =>
  match pyGet info "path" .null with
  | .error er => .error er
  | .ok p => .ok (ct, rid, p)

/-- Process one manifest entry (lines 44-167): extract fields, skip entries
with falsy `id` or `path`, resolve the path, then dispatch on whether
`classType` contains the node tag, else the link tag, else ignore the
entry.  The membership tests raise `TypeError` on non-container class types
(uncaught in the source). -/
def processEntry (fs : FS) (dockerPre hostPre : Option String) (st : ConvState)
    (e : Json) : Except PyErr ConvState :=
  match entryFields e with
  | .error er => .error er
  | .ok (ct, rid, p) =>
  if !truthy rid || !truthy p then .ok st
  else
    match mapPath dockerPre hostPre p with
    | .error er => .error er
    | .ok fp =>
    match pyContains ct nodeTag with
    | .error er => .error er
    | .ok true => .ok (processNodeFile fs rid fp st)
    | .ok false =>
      match pyContains ct linkTag with
      | .error er => .error er
      | .ok true => .ok (processLinkFile fs rid ct fp st)
      | .ok false => .ok st

/-- The manifest loop: an uncaught exception in any entry aborts the whole
run. -/
def runEntries (fs : FS) (dockerPre hostPre : Option String) :
    List Json → ConvState → Except PyErr ConvState
  | [], st => .ok st
  | e :: rest, st =>
      match processEntry fs dockerPre hostPre st e with
      | .error er => .error er
      | .ok st' => runEntries fs dockerPre hostPre rest st'

/-- The final serialized document (lines 185-189). -/
structure GpsMap where
  nodes : List Vertex
  edges : List Edge
  directed : Bool

/-- Every way `convert_simulation_data` can end: the three early returns for
an unreadable configuration file (lines 29-37), the early return for a
missing `actorsDataSources` key (lines 39-41), an uncaught exception
escaping the function, the no-data abort at lines 198-200 (reached before
the directory-creation and write block, so neither the output directory nor
the output file is created), or a successful write of the document to the
output path (lines 202-212). -/
inductive ConvOutcome where
  | errConfigNotFound : ConvOutcome
  | errConfigBadJson : ConvOutcome
  | errConfigOther : ConvOutcome
  | errNoActorsKey : ConvOutcome
  | crashed : PyErr → ConvOutcome
  | abortedNoData : ConvState → ConvOutcome
  | wrote : String → GpsMap → ConvState → ConvOutcome

/-- `convert_simulation_data(simulation_config_path, output_path,
docker_path_prefix, host_path_prefix)` over the filesystem model. -/
def convert (fs : FS) (cfgPath outPath : String)
    (dockerPre hostPre : Option String) : ConvOutcome :=
  match fs cfgPath with
  | .missing => .errConfigNotFound
  | .invalidJson => .errConfigBadJson
  | .readError => .errConfigOther
  | .content config =>
  match pyContains config "actorsDataSources" with
  | .error er => .crashed er
  | .ok false => .errNoActorsKey
  | .ok true =>
  match pyGet config "actorsDataSources" (.arr []) with
  | .error er => .crashed er
  | .ok v =>
  match pyIter v with
  | .error er => .crashed er
  | .ok entries =>
  match runEntries fs dockerPre hostPre entries initState with
  | .error er => .crashed er
  | .ok st =>
  if st.vertices.isEmpty && st.edges.isEmpty &&
     (!(st.filesNotFound == 0) || !(st.jsonErrors == 0) || !st.keyErrors.isEmpty) then
    .abortedNoData st
  else
    .wrote outPath ⟨st.vertices, st.edges, false⟩ st

/-! ## Command-line dispatch (lines 249-266) -/

/-- How a parsed invocation proceeds: the paired-prefix usage check at
lines 252-253 (`parser.error`, non-zero exit, before any file access), the
missing-configuration check at lines 256-258 (`exit(1)`), or the call to
`convert_simulation_data`. -/
inductive MainOutcome where
  | usageError : MainOutcome
  | missingConfigExit : MainOutcome
  | ran : ConvOutcome → MainOutcome

/-- The `__main__` logic after `argparse` has bound the arguments: an absent
optional flag is `none`, a supplied flag is `some` its value. -/
def mainAfterParse (fs : FS) (cfgPath outPath : String)
    (dockerPre hostPre : Option String) : MainOutcome :=
  if (optTruthy dockerPre && !optTruthy hostPre) ||
     (!optTruthy dockerPre && optTruthy hostPre) then .usageError
  else
    match fs cfgPath with
    | .missing => .missingConfigExit
    | _ => .ran (convert fs cfgPath outPath dockerPre hostPre)

/-! ## Derived definitions used to state the claims -/

/-- Concatenation of the images of a list-valued function. -/
def cmap (f : α → List β) : List α → List β
  | [] => []
  | a :: as => f a ++ cmap f as

/-- The vertices one node record contributes. -/
def vertContrib (rid : Json) (r : Json) : List Vertex :=
  match mkVertex rid r with
  | .ok v => [v]
  | .error _ => []

/-- The key-error-bucket entries one node record contributes. -/
def nodeErrContrib (rid : Json) (r : Json) : List KeyErrKind :=
  match mkVertex rid r with
  | .error .keyError => [.missingKey]
  | _ => []

/-- The edges one link record contributes. -/
def edgeContrib (rid ct : Json) (r : Json) : List Edge :=
  match mkEdge rid ct r with
  | .edge e => [e]
  | _ => []

/-- The key-error-bucket entries one link record contributes. -/
def linkErrContrib (rid ct : Json) (r : Json) : List KeyErrKind :=
  match mkEdge rid ct r with
  | .keyError => [.missingKey]
  | .valueError => [.badFloat]
  | _ => []

/-- Python `a or b` on JSON values: `a` when truthy, else `b`. -/
def pyOr (a b : Json) : Json :=
  if truthy a then a else b

def isOkVertex (r : Except NodeFail Vertex) : Bool :=
  match r with
  | .ok _ => true
  | .error _ => false

def isEdgeOutcome (o : LinkOutcome) : Bool :=
  match o with
  | .edge _ => true
  | _ => false

/-- A manifest entry that is a well-formed node entry over `fs`: its fields
extract, `id` is truthy, `classType` is a string containing the node tag,
`path` is a truthy string, the resolved path holds a JSON list, and every
record of that list builds a vertex. -/
def validNodeEntry (fs : FS) (dockerPre hostPre : Option String) (e : Json) : Bool :=
  match entryFields e with
  | .error _ => false
  | .ok (ct, rid, p) =>
    truthy rid &&
    (match ct, p with
     | .str c, .str ps =>
         pyInStr c nodeTag && !(ps == "") &&
         (match fs (resolvePath dockerPre hostPre ps) with
          | .content (.arr recs) => recs.all (fun r => isOkVertex (mkVertex rid r))
          | _ => false)
     | _, _ => false)

/-- A manifest entry that is a well-formed link entry over `fs` (the class
type must not also contain the node tag, which takes dispatch priority). -/
def validLinkEntry (fs : FS) (dockerPre hostPre : Option String) (e : Json) : Bool :=
  match entryFields e with
  | .error _ => false
  | .ok (ct, rid, p) =>
    truthy rid &&
    (match ct, p with
     | .str c, .str ps =>
         !pyInStr c nodeTag && pyInStr c linkTag && !(ps == "") &&
         (match fs (resolvePath dockerPre hostPre ps) with
          | .content (.arr recs) =>
              recs.all (fun r => isEdgeOutcome (mkEdge rid (.str c) r))
          | _ => false)
     | _, _ => false)

/-- A manifest entry the pass ignores without touching any file: its fields
extract and either `id`/`path` is falsy, or its string class type carries
neither tag. -/
def inertEntry (e : Json) : Bool :=
  match entryFields e with
  | .error _ => false
  | .ok (ct, rid, p) =>
    !truthy rid || !truthy p ||
    (match ct, p with
     | .str c, .str _ => !pyInStr c nodeTag && !pyInStr c linkTag
     | _, _ => false)

/-- The number of records in the data file an entry points to (0 when the
entry or file is not well-formed). -/
def entryRecCount (fs : FS) (dockerPre hostPre : Option String) (e : Json) : Nat :=
  match entryFields e with
  | .ok (_, _, .str ps) =>
      match fs (resolvePath dockerPre hostPre ps) with
      | .content (.arr recs) => recs.length
      | _ => 0
  | _ => 0

/-- Total record count over the valid node entries of a manifest. -/
def nodesTotal (fs : FS) (dockerPre hostPre : Option String)
    (entries : List Json) : Nat :=
  (entries.map (fun e =>
    if validNodeEntry fs dockerPre hostPre e then entryRecCount fs dockerPre hostPre e
    else 0)).sum

/-- Total record count over the valid link entries of a manifest. -/
def edgesTotal (fs : FS) (dockerPre hostPre : Option String)
    (entries : List Json) : Nat :=
  (entries.map (fun e =>
    if validLinkEntry fs dockerPre hostPre e then entryRecCount fs dockerPre hostPre e
    else 0)).sum

/-- A manifest entry whose shape keeps every uncaught exception site of the
per-entry code unreachable: the entry is a dict, its `classType` value is a
string, its `dataSource` value and that value's `info` value are dicts, and
the `path` value is a string or absent. -/
def safeEntry (e : Json) : Bool :=
  match e with
  | .obj kvs =>
    (match (lookupLast kvs "classType").getD (.str "") with
     | .str _ => true
     | _ => false) &&
    (match (lookupLast kvs "dataSource").getD (.obj []) with
     | .obj dk =>
        (match (lookupLast dk "info").getD (.obj []) with
         | .obj ik =>
            (match (lookupLast ik "path").getD .null with
             | .str _ => true
             | .null => true
             | _ => false)
         | _ => false)
     | _ => false)
  | _ => false

/-- A decoded manifest whose shape keeps every uncaught exception site
unreachable: a dict whose `actorsDataSources` value, when present, is a list
of safe entries. -/
def safeManifest (config : Json) : Bool :=
  match config with
  | .obj kvs =>
      match lookupLast kvs "actorsDataSources" with
      | none => true
      | some (.arr es) => es.all safeEntry
      | some _ => false
  | _ => false

/-- `s.drop n` through the character-list representation. -/
def strDrop (s : String) (n : Nat) : String :=
  ⟨s.data.drop n⟩

/-- Modelled from the claim C4's words: if both prefixes are supplied and
the raw path starts with the docker one, replace exactly the leading
occurrence of the docker value with the host value; in every other case use
the raw path unchanged. -/
def resolvePathClaim (dockerPre hostPre : Option String) (p : String) : String :=
  match dockerPre, hostPre with
  | some d, some h => if pyStartsWith p d then h ++ strDrop p d.length else p
  | _, _ => p

/-! ## Concrete inputs used by counterexamples and witnesses -/

/-- A link record carrying an id and a parseable length but no endpoint at
either the primary or the fallback location. -/
def c1rec : Json :=
  .obj [("id", .str "L1"),
        ("data", .obj [("content", .obj [("length", .str "1.0")])])]

/-- A fully well-formed link record. -/
def goodLinkRec : Json :=
  .obj [("id", .str "L0"),
        ("data", .obj [("content", .obj [("from_node", .str "A"),
                                         ("to_node", .str "B"),
                                         ("length", .str "2.5")])])]

/-- A fully well-formed node record. -/
def goodNodeRec : Json :=
  .obj [("id", .str "N0"), ("typeActor", .str "htc.mobility.actor.Node"),
        ("data", .obj [("content", .obj [("latitude", .num (-23 : Rat)),
                                         ("longitude", .num 46)])])]

/-- A node record with every required field except `latitude`. -/
def c6rec : Json :=
  .obj [("id", .str "N1"), ("typeActor", .str "htc.mobility.actor.Node"),
        ("data", .obj [("content", .obj [("longitude", .num 46)])])]

/-- A link record whose `length` is the non-numeric string "abc". -/
def c7rec : Json :=
  .obj [("id", .str "L2"),
        ("data", .obj [("content", .obj [("from_node", .str "A"),
                                         ("to_node", .str "B"),
                                         ("length", .str "abc")])])]

/-- A node record in which no looked-up key is missing but the `data` value
is a string, so subscripting it raises `TypeError`, not `KeyError`. -/
def c10rec : Json :=
  .obj [("id", .num 1), ("typeActor", .str "t"), ("data", .str "oops")]

/-- A node record built from arbitrary field values at the expected
locations. -/
def nodeRecOf (i ty lat lon : Json) : Json :=
  .obj [("id", i), ("typeActor", ty),
        ("data", .obj [("content", .obj [("latitude", lat), ("longitude", lon)])])]

/-- A link record with arbitrary values at both the primary endpoint
locations (`data.content.from_node` / `to_node`) and the fallback locations
(`dependencies.from_node.id` / `to_node.id`). -/
def linkRecOf (lid len p1 p2 f1 f2 : Json) : Json :=
  .obj [("id", lid),
        ("data", .obj [("content", .obj [("from_node", p1), ("to_node", p2),
                                         ("length", len)])]),
        ("dependencies", .obj [("from_node", .obj [("id", f1)]),
                               ("to_node", .obj [("id", f2)])])]

/-- A filesystem whose configuration file decodes to the JSON number 5. -/
def fsNumCfg : FS := fun p =>
  if p = "cfg.json" then .content (.num 5) else .missing

/-- A filesystem whose configuration file decodes to an empty JSON object. -/
def fsEmptyCfg : FS := fun p =>
  if p = "cfg.json" then .content (.obj []) else .missing

/-- A node entry whose data file will be absent. -/
def missingFileEntry : Json :=
  .obj [("classType", .str "mobility.actor.Node"),
        ("id", .str "n1"),
        ("dataSource",
         .obj [("info", .obj [("path", .str "/data/nodes.json")])])]

/-- A manifest with one node entry whose data file is absent. -/
def cfgMissingFile : Json :=
  .obj [("actorsDataSources", .arr [missingFileEntry])]

/-- A filesystem holding `cfgMissingFile` and nothing else. -/
def fsMissingFile : FS := fun p =>
  if p = "cfg.json" then .content cfgMissingFile else .missing

/-- A node entry pointing at `/data/nodes.json`. -/
def nodeEntryA : Json :=
  .obj [("classType", .str "mobility.actor.Node"),
        ("id", .str "n1"),
        ("dataSource", .obj [("info", .obj [("path", .str "/data/nodes.json")])])]

/-- A link entry pointing at `/data/links.json`. -/
def linkEntryA : Json :=
  .obj [("classType", .str "mobility.actor.Link"),
        ("id", .str "l1"),
        ("dataSource", .obj [("info", .obj [("path", .str "/data/links.json")])])]

/-- The entry list of the two-entry manifest. -/
def twoEntries : List Json := [nodeEntryA, linkEntryA]

/-- A manifest with one node entry and one link entry. -/
def cfgTwoEntries : Json :=
  .obj [("actorsDataSources", .arr twoEntries)]

/-- A filesystem holding `cfgTwoEntries`, two node records and one link
record. -/
def fsTwoEntries : FS := fun p =>
  if p = "cfg.json" then .content cfgTwoEntries
  else if p = "/data/nodes.json" then .content (.arr [goodNodeRec, goodNodeRec])
  else if p = "/data/links.json" then .content (.arr [goodLinkRec])
  else .missing

/-! ## Structure of the record loops -/

theorem cmap_append (f : α → List β) (l1 l2 : List α) :
    cmap f (l1 ++ l2) = cmap f l1 ++ cmap f l2 := by
  induction l1 with
  | nil => rfl
  | cons a as ih => simp [cmap, ih]

/-- The node-record loop appends exactly the per-record vertex and key-error
contributions, touching no other component of the state. -/
theorem processNodes_eq (rid : Json) (recs : List Json) (st : ConvState) :
    processNodes rid recs st =
      { st with vertices := st.vertices ++ cmap (vertContrib rid) recs,
                keyErrors := st.keyErrors ++ cmap (nodeErrContrib rid) recs } := by
  induction recs generalizing st with
  | nil => simp [processNodes, cmap]
  | cons r rs ih =>
      show processNodes rid rs (stepNode rid st r) = _
      rw [ih]
      cases h : mkVertex rid r with
      | ok v => simp [stepNode, h, vertContrib, nodeErrContrib, cmap]
      | error e =>
          cases e with
          | keyError => simp [stepNode, h, vertContrib, nodeErrContrib, cmap]
          | other => simp [stepNode, h, vertContrib, nodeErrContrib, cmap]

/-- The link-record loop appends exactly the per-record edge and key-error
contributions, touching no other component of the state. -/
theorem processLinks_eq (rid ct : Json) (recs : List Json) (st : ConvState) :
    processLinks rid ct recs st =
      { st with edges := st.edges ++ cmap (edgeContrib rid ct) recs,
                keyErrors := st.keyErrors ++ cmap (linkErrContrib rid ct) recs } := by
  induction recs generalizing st with
  | nil => simp [processLinks, cmap]
  | cons r rs ih =>
      show processLinks rid ct rs (stepLink rid ct st r) = _
      rw [ih]
      cases h : mkEdge rid ct r with
      | edge e => simp [stepLink, h, edgeContrib, linkErrContrib, cmap]
      | keyError => simp [stepLink, h, edgeContrib, linkErrContrib, cmap]
      | valueError => simp [stepLink, h, edgeContrib, linkErrContrib, cmap]
      | missingEndpoint => simp [stepLink, h, edgeContrib, linkErrContrib, cmap]
      | other => simp [stepLink, h, edgeContrib, linkErrContrib, cmap]

/-! ## Claim C1 -/

/-- C1 counterexample: a link record that yields no endpoint from either the
primary or the fallback location is skipped, but — contrary to the claim —
its failure is NOT accumulated into any error bucket: processing a link file
consisting of exactly this record leaves the entire state, all three error
buckets included, unchanged. -/
theorem c1_counterexample :
    mkEdge (.str "r") (.str "c") c1rec = .missingEndpoint ∧
    processLinks (.str "r") (.str "c") [c1rec] initState = initState :=
  ⟨rfl, rfl⟩

/-- C1 (amended): a link record in which neither endpoint location yields a
truthy value is skipped without interrupting the pass — processing a file
with the record gives exactly the state of processing the file without it —
but the failure is only printed, never accumulated into an error bucket. -/
theorem c1_missing_endpoint_skipped (rid ct rec : Json)
    (h : mkEdge rid ct rec = .missingEndpoint) :
    ∀ pre post st, processLinks rid ct (pre ++ rec :: post) st
      = processLinks rid ct (pre ++ post) st := by
  intro pre post st
  rw [processLinks_eq, processLinks_eq]
  simp [cmap, cmap_append, edgeContrib, linkErrContrib, h]

/-- C1 witness: a concrete missing-endpoint record between two good records
is skipped with nothing else changed. -/
theorem c1_missing_endpoint_skipped_witness :
    processLinks (.str "r") (.str "c") ([goodLinkRec] ++ c1rec :: [goodLinkRec])
        initState
      = processLinks (.str "r") (.str "c") ([goodLinkRec] ++ [goodLinkRec])
        initState :=
  c1_missing_endpoint_skipped (.str "r") (.str "c") c1rec rfl
    [goodLinkRec] [goodLinkRec] initState

/-! ## Claim C6 -/

/-- C6: a node record whose vertex construction hits a missing required
field (a `KeyError`, e.g. a missing `latitude`) contributes no vertex,
increments the key-error bucket by one, and leaves the processing of every
sibling record untouched: relative to the same file without the record, the
vertex list and edge list are identical and the key-error bucket is exactly
one entry longer. -/
theorem c6_node_key_error_isolated (rid rec : Json)
    (h : mkVertex rid rec = .error .keyError) :
    ∀ pre post st,
      (processNodes rid (pre ++ rec :: post) st).vertices
        = (processNodes rid (pre ++ post) st).vertices ∧
      (processNodes rid (pre ++ rec :: post) st).keyErrors.length
        = (processNodes rid (pre ++ post) st).keyErrors.length + 1 ∧
      (processNodes rid (pre ++ rec :: post) st).edges
        = (processNodes rid (pre ++ post) st).edges := by
  intro pre post st
  rw [processNodes_eq, processNodes_eq]
  refine ⟨?_, ?_, rfl⟩
  · simp [cmap, cmap_append, vertContrib, h]
  · simp [cmap, cmap_append, nodeErrContrib, h]
    omega

/-- C6 witness: a record missing only `latitude`, between two good records;
both siblings still convert. -/
theorem c6_node_key_error_isolated_witness :
    (processNodes (.str "n1") ([goodNodeRec] ++ c6rec :: [goodNodeRec])
        initState).vertices
      = (processNodes (.str "n1") ([goodNodeRec] ++ [goodNodeRec])
          initState).vertices ∧
    (processNodes (.str "n1") ([goodNodeRec] ++ c6rec :: [goodNodeRec])
        initState).keyErrors.length
      = (processNodes (.str "n1") ([goodNodeRec] ++ [goodNodeRec])
          initState).keyErrors.length + 1 ∧
    (processNodes (.str "n1") ([goodNodeRec] ++ c6rec :: [goodNodeRec])
        initState).edges
      = (processNodes (.str "n1") ([goodNodeRec] ++ [goodNodeRec])
          initState).edges :=
  c6_node_key_error_isolated (.str "n1") c6rec rfl
    [goodNodeRec] [goodNodeRec] initState

/-! ## Claim C7 -/

/-- C7: a link record whose `data.content.length` cannot be converted by
`float(...)` (a `ValueError`, e.g. the string "abc") contributes no edge, is
recorded in the error bucket as a failed float conversion, and the
subsequent records of the same file are processed exactly as they would be
otherwise: the resulting edge list is the one of the file without the
record. -/
theorem c7_bad_length_value_error (rid ct rec : Json)
    (h : mkEdge rid ct rec = .valueError) :
    ∀ pre post st,
      (processLinks rid ct (pre ++ rec :: post) st).edges
        = (processLinks rid ct (pre ++ post) st).edges ∧
      (processLinks rid ct (pre ++ rec :: post) st).keyErrors
        = st.keyErrors ++ cmap (linkErrContrib rid ct) pre
            ++ KeyErrKind.badFloat :: cmap (linkErrContrib rid ct) post := by
  intro pre post st
  rw [processLinks_eq, processLinks_eq]
  constructor
  · simp [cmap, cmap_append, edgeContrib, h]
  · simp [cmap, cmap_append, linkErrContrib, h]

/-- C7 witness: a record with length "abc" between two good records; the
siblings' edges are unaffected and one failed-float entry is recorded. -/
theorem c7_bad_length_value_error_witness :
    (processLinks (.str "r") (.str "c") ([goodLinkRec] ++ c7rec :: [goodLinkRec])
        initState).edges
      = (processLinks (.str "r") (.str "c") ([goodLinkRec] ++ [goodLinkRec])
          initState).edges ∧
    (processLinks (.str "r") (.str "c") ([goodLinkRec] ++ c7rec :: [goodLinkRec])
        initState).keyErrors
      = initState.keyErrors
          ++ cmap (linkErrContrib (.str "r") (.str "c")) [goodLinkRec]
          ++ KeyErrKind.badFloat
            :: cmap (linkErrContrib (.str "r") (.str "c")) [goodLinkRec] :=
  c7_bad_length_value_error (.str "r") (.str "c") c7rec rfl
    [goodLinkRec] [goodLinkRec] initState

/-! ## Claim C9 -/

/-- C9: for a link record populated at both the primary endpoint locations
(`data.content.from_node` / `to_node`) and the fallback locations
(`dependencies.from_node.id` / `to_node.id`), with any values whatsoever,
endpoint resolution is Python `or`: a falsy primary value (empty string, 0,
null, false, ...) is silently replaced by the fallback value, and the
record is dropped as missing-endpoint exactly when a resolved endpoint is
still falsy. -/
theorem c9_endpoint_fallback (rid ct lid len p1 p2 f1 f2 : Json)
    (hlen : pyFloat len = .ok) :
    mkEdge rid ct (linkRecOf lid len p1 p2 f1 f2) =
      (if truthy (pyOr p1 f1) && truthy (pyOr p2 f2) then
         .edge ⟨pyOr p1 f1, pyOr p2 f2, len, ⟨lid, rid, ct, len⟩⟩
       else .missingEndpoint) := by
  cases hp1 : truthy p1 <;> cases hp2 : truthy p2 <;>
    cases hf1 : truthy f1 <;> cases hf2 : truthy f2 <;>
      simp [mkEdge, endpointOf, linkRecOf, pyGet, pyIndex, pyIndex3,
            lookupLast, pyOr, hlen, hp1, hp2, hf1, hf2]

/-- C9 witness: a primary `from_node` of "" and a primary `to_node` of 0 are
both silently replaced by the fallback identifiers. -/
theorem c9_endpoint_fallback_witness :
    mkEdge (.str "r") (.str "c")
        (linkRecOf (.str "L") (.str "2.0") (.str "") (.num 0)
          (.str "A") (.str "B"))
      = .edge ⟨.str "A", .str "B", .str "2.0",
               ⟨.str "L", .str "r", .str "c", .str "2.0"⟩⟩ := by
  have h := c9_endpoint_fallback (.str "r") (.str "c") (.str "L") (.str "2.0")
    (.str "") (.num 0) (.str "A") (.str "B") rfl
  simpa [pyOr, truthy] using h

/-! ## Claim C10 -/

/-- C10 counterexample: a node record in which every looked-up key is
present (`id`, `typeActor`, `data`) but whose `data` value is a string is
dropped via `TypeError` — not via a missing key — so "only a missing key
drops the record" is false. -/
theorem c10_counterexample :
    mkVertex (.str "r") c10rec = .error .other ∧
    pyIndex c10rec "id" = .val (.num 1) ∧
    pyIndex c10rec "typeActor" = .val (.str "t") ∧
    pyIndex c10rec "data" = .val (.str "oops") :=
  ⟨rfl, rfl, rfl, rfl⟩

/-- C10 (amended): for every node record that is accepted, the vertex's
fields — latitude and longitude included — are copied verbatim from the
record with no parsing or validation: any JSON values at the expected
locations (null, non-numeric strings, anything) yield a vertex holding
exactly those values.  A record is dropped when a required key is missing
(key error) or when an intermediate value is not an object (type error); no
other record is dropped. -/
theorem c10_verbatim_copy (rid i ty lat lon : Json) :
    mkVertex rid (nodeRecOf i ty lat lon) = .ok ⟨i, ty, rid, lat, lon⟩ := by
  simp [mkVertex, nodeRecOf, pyIndex, pyIndex3, lookupLast]

/-! ## Claim C4 -/

/-- Replacing the first occurrence of a pattern that the list starts with
swaps exactly the leading occurrence. -/
theorem replFirstL_of_isPre (pat rep s : List Char) (h : isPre pat s = true) :
    replFirstL pat rep s = rep ++ s.drop pat.length := by
  cases s with
  | nil =>
      cases pat with
      | nil => simp [replFirstL, List.isEmpty]
      | cons c cs => simp [isPre] at h
  | cons c cs => simp [replFirstL, h]

/-- C4 counterexample: with a supplied-but-empty docker prefix the code's
truthiness guard treats the pair as absent and leaves the path unchanged,
while the claim's case split ("both supplied and the path starts with the
docker prefix" — every path starts with "") demands the substitution. -/
theorem c4_counterexample :
    resolvePath (some "") (some "H") "p" = "p" ∧
    resolvePathClaim (some "") (some "H") "p" = "Hp" ∧
    resolvePath (some "") (some "H") "p" ≠ resolvePathClaim (some "") (some "H") "p" :=
  ⟨rfl, rfl, by decide⟩

/-- C4 (amended): when both prefixes are supplied AND non-empty, a path
starting with the docker prefix has exactly its leading occurrence replaced
by the host prefix (a single substitution, even if the docker prefix string
recurs later), and any other path is unchanged; when either prefix is
absent or empty, every path is used unchanged. -/
theorem c4_path_mapping (dockerPre hostPre : Option String) (p : String) :
    (∀ d h, dockerPre = some d → hostPre = some h → d ≠ "" → h ≠ "" →
        resolvePath dockerPre hostPre p = resolvePathClaim dockerPre hostPre p) ∧
    (optTruthy dockerPre = false ∨ optTruthy hostPre = false →
        resolvePath dockerPre hostPre p = p) := by
  constructor
  · intro d h hd hh hdne hhne
    subst hd; subst hh
    have hd' : optTruthy (some d) = true := by
      simp [optTruthy]; exact hdne
    have hh' : optTruthy (some h) = true := by
      simp [optTruthy]; exact hhne
    cases hs : pyStartsWith p d with
    | false => simp [resolvePath, resolvePathClaim, hd', hh', hs]
    | true =>
        have hrepl : replFirstL d.data h.data p.data
            = h.data ++ p.data.drop d.data.length :=
          replFirstL_of_isPre d.data h.data p.data hs
        simp only [resolvePath, resolvePathClaim, hd', hh', hs,
          Option.getD_some, Bool.and_self, Bool.true_and, if_pos]
        show pyReplaceFirst p d h = h ++ strDrop p d.length
        apply String.ext
        show replFirstL d.data h.data p.data = (h ++ strDrop p d.length).data
        rw [hrepl, String.data_append]
        rfl
  · intro hfalsy
    cases hfalsy with
    | inl hd => simp [resolvePath, hd]
    | inr hh => simp [resolvePath, hh]

/-- C4 witness: the spec's own example, plus the unchanged case when the
docker prefix is absent. -/
theorem c4_path_mapping_witness :
    resolvePath (some "/app/data/") (some "/host/sim/") "/app/data/nodes.json"
      = resolvePathClaim (some "/app/data/") (some "/host/sim/") "/app/data/nodes.json" ∧
    resolvePath none (some "/host/sim/") "/app/data/nodes.json"
      = "/app/data/nodes.json" :=
  ⟨(c4_path_mapping (some "/app/data/") (some "/host/sim/") "/app/data/nodes.json").1
      "/app/data/" "/host/sim/" rfl rfl (by decide) (by decide),
   (c4_path_mapping none (some "/host/sim/") "/app/data/nodes.json").2 (Or.inl rfl)⟩

/-! ## Claim C8 -/

/-- C8 counterexample: the invocation `prog cfg.json --docker-prefix ""`
supplies exactly one of the two prefix flags, yet the truthiness-based
usage check at lines 252-253 does not fire: the program proceeds,
`convert_simulation_data` runs, and the configuration file is opened and
read (here reaching the missing-actorsDataSources return). -/
theorem c8_counterexample :
    mainAfterParse fsEmptyCfg "cfg.json" "out.json" (some "") none
      = .ran .errNoActorsKey :=
  rfl

/-- C8 (amended): supplying exactly one of the two prefix flags with a
NON-EMPTY value makes the run abort with the argparse usage error (non-zero
exit) before any processing: `convert_simulation_data` is never invoked and
no file is touched. -/
theorem c8_single_prefix_usage_abort (fs : FS) (cfg out v : String)
    (hv : v ≠ "") :
    mainAfterParse fs cfg out (some v) none = .usageError ∧
    mainAfterParse fs cfg out none (some v) = .usageError := by
  have hv' : optTruthy (some v) = true := by
    simp [optTruthy]; exact hv
  have hn : optTruthy none = false := rfl
  constructor <;> simp [mainAfterParse, hv', hn]

/-- C8 witness: a non-empty single prefix aborts regardless of the
filesystem. -/
theorem c8_single_prefix_usage_abort_witness :
    mainAfterParse fsEmptyCfg "cfg.json" "out.json" (some "/x") none
      = .usageError ∧
    mainAfterParse fsEmptyCfg "cfg.json" "out.json" none (some "/x")
      = .usageError :=
  c8_single_prefix_usage_abort fsEmptyCfg "cfg.json" "out.json" "/x" (by decide)

/-! ## Lookup and dispatch lemmas -/

theorem lookupLast_foldl_none (kvs : List (String × Json)) (k : String)
    (acc : Option Json) :
    kvs.foldl (fun a p => if p.1 = k then some p.2 else a) acc = none ↔
      acc = none ∧ kvs.all (fun p => !(p.1 == k)) = true := by
  induction kvs generalizing acc with
  | nil => simp
  | cons p ps ih =>
      simp only [List.foldl_cons, List.all_cons, ih]
      by_cases hp : p.1 = k
      · simp [hp]
      · simp [hp]

theorem lookupLast_isSome_of_any (kvs : List (String × Json)) (k : String)
    (h : kvs.any (fun p => p.1 == k) = true) :
    ∃ v, lookupLast kvs k = some v := by
  cases hl : lookupLast kvs k with
  | some v => exact ⟨v, rfl⟩
  | none =>
      have hall := ((lookupLast_foldl_none kvs k none).mp hl).2
      simp only [List.any_eq_true] at h
      obtain ⟨p, hp, hpk⟩ := h
      have := List.all_eq_true.mp hall p hp
      simp at this hpk
      exact absurd hpk this

/-- When the two prefixes are not both truthy, the resolved path is the raw
path. -/
theorem resolvePath_id_of_not_both (dp hp : Option String) (p : String)
    (h : (optTruthy dp && optTruthy hp) = false) : resolvePath dp hp p = p := by
  cases hd : optTruthy dp <;> cases hh : optTruthy hp <;>
    simp [resolvePath, hd, hh] <;> simp [hd, hh] at h

/-- On a string path, the mapping block always succeeds and returns the
resolved path. -/
theorem mapPath_str (dp hp : Option String) (p : String) :
    mapPath dp hp (.str p) = .ok (.str (resolvePath dp hp p)) := by
  cases hb : (optTruthy dp && optTruthy hp) with
  | true => simp [mapPath, hb]
  | false => simp [mapPath, hb, resolvePath_id_of_not_both dp hp p hb]

/-! ## Claim C2 -/

/-- A safe entry can never make `processEntry` raise. -/
theorem processEntry_safe (fs : FS) (dp hp : Option String) (st : ConvState)
    (e : Json) (hs : safeEntry e = true) :
    ∃ st', processEntry fs dp hp st e = .ok st' := by
  cases e with
  | null => simp [safeEntry] at hs
  | bool b => simp [safeEntry] at hs
  | num q => simp [safeEntry] at hs
  | str s => simp [safeEntry] at hs
  | arr xs => simp [safeEntry] at hs
  | obj kvs =>
      simp only [safeEntry, Bool.and_eq_true] at hs
      obtain ⟨h1, h2⟩ := hs
      cases hct : (lookupLast kvs "classType").getD (.str "") with
      | str c =>
        cases hds : (lookupLast kvs "dataSource").getD (.obj []) with
        | obj dk =>
          cases hinfo : (lookupLast dk "info").getD (.obj []) with
          | obj ik =>
            have hef : entryFields (.obj kvs)
                = .ok (.str c, (lookupLast kvs "id").getD .null,
                       (lookupLast ik "path").getD .null) := by
              simp [entryFields, pyGet, hct, hds, hinfo]
            cases hpath : (lookupLast ik "path").getD .null with
            | str ps =>
                rw [hpath] at hef
                by_cases hskip :
                    (!truthy ((lookupLast kvs "id").getD .null)
                      || !truthy (.str ps)) = true
                · exact ⟨st, by simp [processEntry, hef, hskip]⟩
                · cases hnode : pyInStr c nodeTag with
                  | true =>
                      refine ⟨processNodeFile fs ((lookupLast kvs "id").getD .null)
                        (.str (resolvePath dp hp ps)) st, ?_⟩
                      simp [processEntry, hef, hskip, mapPath_str,
                            pyContains, hnode]
                  | false =>
                      cases hlink : pyInStr c linkTag with
                      | true =>
                          refine ⟨processLinkFile fs
                            ((lookupLast kvs "id").getD .null) (.str c)
                            (.str (resolvePath dp hp ps)) st, ?_⟩
                          simp [processEntry, hef, hskip, mapPath_str,
                                pyContains, hnode, hlink]
                      | false =>
                          exact ⟨st, by simp [processEntry, hef, hskip,
                            mapPath_str, pyContains, hnode, hlink]⟩
            | null =>
                rw [hpath] at hef
                exact ⟨st, by simp [processEntry, hef, truthy]⟩
            | bool b => simp [hds, hinfo, hpath] at h2
            | num q => simp [hds, hinfo, hpath] at h2
            | arr xs => simp [hds, hinfo, hpath] at h2
            | obj o => simp [hds, hinfo, hpath] at h2
          | null => simp [hds, hinfo] at h2
          | bool b => simp [hds, hinfo] at h2
          | num q => simp [hds, hinfo] at h2
          | str s => simp [hds, hinfo] at h2
          | arr xs => simp [hds, hinfo] at h2
        | null => simp [hds] at h2
        | bool b => simp [hds] at h2
        | num q => simp [hds] at h2
        | str s => simp [hds] at h2
        | arr xs => simp [hds] at h2
      | null => simp [hct] at h1
      | bool b => simp [hct] at h1
      | num q => simp [hct] at h1
      | arr xs => simp [hct] at h1
      | obj o => simp [hct] at h1

/-- A list of safe entries can never make the manifest loop raise. -/
theorem runEntries_safe (fs : FS) (dp hp : Option String) (es : List Json) :
    ∀ st, (∀ e ∈ es, safeEntry e = true) →
      ∃ st', runEntries fs dp hp es st = .ok st' := by
  induction es with
  | nil => intro st _; exact ⟨st, rfl⟩
  | cons e rest ih =>
      intro st hall
      obtain ⟨st1, h1⟩ := processEntry_safe fs dp hp st e (hall e (by simp))
      obtain ⟨st2, h2⟩ := ih st1 (fun x hx => hall x (by simp [hx]))
      exact ⟨st2, by simp [runEntries, h1, h2]⟩

/-- C2 counterexample: a configuration file whose JSON decodes to the number
5 makes line 39 (`"actorsDataSources" not in config`) raise a `TypeError`
outside every `try` block: the exception escapes
`convert_simulation_data`. -/
theorem c2_counterexample :
    convert fsNumCfg "cfg.json" "out.json" none none
      = .crashed .typeError :=
  rfl

/-- C2 (amended): `convert_simulation_data` lets no exception escape
provided the decoded manifest, when it decodes at all, is a JSON object
whose `actorsDataSources` value (when present) is a list of entries that
are each objects with a string `classType`, object-shaped
`dataSource`/`dataSource.info` values, and a string-or-absent `path`.
Arbitrary data-file contents, record shapes, and prefix arguments never
make it raise: every failure there is caught internally as a record-level
skip or an early return. -/
theorem c2_no_crash_on_safe_manifest (fs : FS) (cfg out : String)
    (dp hp : Option String)
    (hsafe : ∀ cfgJson, fs cfg = .content cfgJson → safeManifest cfgJson = true)
    (er : PyErr) :
    convert fs cfg out dp hp ≠ .crashed er := by
  cases hc : fs cfg with
  | missing => simp [convert, hc]
  | invalidJson => simp [convert, hc]
  | readError => simp [convert, hc]
  | content cfgJson =>
      have hsm := hsafe cfgJson hc
      cases cfgJson with
      | null => simp [safeManifest] at hsm
      | bool b => simp [safeManifest] at hsm
      | num q => simp [safeManifest] at hsm
      | str s => simp [safeManifest] at hsm
      | arr xs => simp [safeManifest] at hsm
      | obj kvs =>
          cases hany : kvs.any (fun p => p.1 == "actorsDataSources") with
          | false => simp [convert, hc, pyContains, hany]
          | true =>
              obtain ⟨w, hw⟩ := lookupLast_isSome_of_any kvs "actorsDataSources" hany
              rw [safeManifest] at hsm
              rw [hw] at hsm
              cases w with
              | arr es =>
                  obtain ⟨st', hrun⟩ := runEntries_safe fs dp hp es initState
                    (fun x hx => by
                      have := List.all_eq_true.mp hsm x hx
                      simpa using this)
                  simp only [convert, hc, pyContains, hany, pyGet, hw,
                    Option.getD_some, pyIter, hrun]
                  split <;> simp
              | null => simp at hsm
              | bool b => simp at hsm
              | num q => simp at hsm
              | str s => simp at hsm
              | obj o => simp at hsm

/-- C2 witness: a safe two-entry manifest over a concrete filesystem never
crashes. -/
theorem c2_no_crash_on_safe_manifest_witness :
    convert fsTwoEntries "cfg.json" "out.json" none none ≠ .crashed .typeError ∧
    convert fsTwoEntries "cfg.json" "out.json" none none ≠ .crashed .attributeError := by
  have hsafe : ∀ cfgJson, fsTwoEntries "cfg.json" = .content cfgJson →
      safeManifest cfgJson = true := by
    intro cfgJson h
    rw [show fsTwoEntries "cfg.json" = .content cfgTwoEntries from rfl] at h
    cases h
    decide
  exact ⟨c2_no_crash_on_safe_manifest fsTwoEntries "cfg.json" "out.json"
      none none hsafe .typeError,
    c2_no_crash_on_safe_manifest fsTwoEntries "cfg.json" "out.json"
      none none hsafe .attributeError⟩

/-! ## Claim C5 -/

/-- C5: once the pass over all manifest entries has completed with state
`st`, the run takes the no-output abort — returning before the
directory-creation and write block, so neither the output directory nor the
output file is created — exactly when zero vertices and zero edges were
produced and at least one error sits in the buckets (files not found, JSON
errors, or key/value errors); in every other case the output document built
from the accumulated vertices and edges is written to the output path. -/
theorem c5_no_data_no_output (fs : FS) (cfg out : String) (dp hp : Option String)
    (config entriesJson : Json) (entries : List Json) (st : ConvState)
    (hcfg : fs cfg = .content config)
    (hkey : pyContains config "actorsDataSources" = .ok true)
    (hget : pyGet config "actorsDataSources" (.arr []) = .ok entriesJson)
    (hiter : pyIter entriesJson = .ok entries)
    (hrun : runEntries fs dp hp entries initState = .ok st) :
    (convert fs cfg out dp hp = .abortedNoData st ↔
      (st.vertices = [] ∧ st.edges = [] ∧
        (st.filesNotFound ≠ 0 ∨ st.jsonErrors ≠ 0 ∨ st.keyErrors ≠ []))) ∧
    (¬(st.vertices = [] ∧ st.edges = [] ∧
        (st.filesNotFound ≠ 0 ∨ st.jsonErrors ≠ 0 ∨ st.keyErrors ≠ [])) →
      convert fs cfg out dp hp = .wrote out ⟨st.vertices, st.edges, false⟩ st) := by
  have hconv : convert fs cfg out dp hp =
      (if st.vertices.isEmpty && st.edges.isEmpty &&
          (!(st.filesNotFound == 0) || !(st.jsonErrors == 0) || !st.keyErrors.isEmpty)
       then .abortedNoData st
       else .wrote out ⟨st.vertices, st.edges, false⟩ st) := by
    simp only [convert, hcfg, hkey, hget, hiter, hrun]
  have hcond : (st.vertices.isEmpty && st.edges.isEmpty &&
      (!(st.filesNotFound == 0) || !(st.jsonErrors == 0) || !st.keyErrors.isEmpty))
        = true ↔
      (st.vertices = [] ∧ st.edges = [] ∧
        (st.filesNotFound ≠ 0 ∨ st.jsonErrors ≠ 0 ∨ st.keyErrors ≠ [])) := by
    simp only [Bool.and_eq_true, Bool.or_eq_true, Bool.not_eq_true',
      List.isEmpty_iff, beq_iff_eq, beq_eq_false_iff_ne, List.isEmpty_eq_false]
    tauto
  constructor
  · rw [hconv]
    by_cases hb : (st.vertices.isEmpty && st.edges.isEmpty &&
        (!(st.filesNotFound == 0) || !(st.jsonErrors == 0) || !st.keyErrors.isEmpty))
          = true
    · rw [if_pos hb]
      exact ⟨fun _ => hcond.mp hb, fun _ => rfl⟩
    · rw [if_neg hb]
      exact ⟨fun h => ConvOutcome.noConfusion h, fun hP => absurd (hcond.mpr hP) hb⟩
  · intro hnot
    rw [hconv, if_neg (fun hb => hnot (hcond.mp hb))]

/-- C5 witness: a manifest whose single node entry points at a missing file
ends the pass with zero vertices, zero edges and one file-not-found error;
the run aborts without writing. -/
theorem c5_no_data_no_output_witness :
    convert fsMissingFile "cfg.json" "out.json" none none
      = .abortedNoData ⟨[], [], 1, 0, []⟩ :=
  (c5_no_data_no_output fsMissingFile "cfg.json" "out.json" none none
      cfgMissingFile (.arr [missingFileEntry]) [missingFileEntry]
      ⟨[], [], 1, 0, []⟩ rfl rfl rfl rfl rfl).1.mpr
    ⟨rfl, rfl, Or.inl (by decide)⟩

/-! ## Claim C3: counting lemmas -/

theorem cmap_vertContrib_length (rid : Json) (recs : List Json)
    (h : ∀ r ∈ recs, isOkVertex (mkVertex rid r) = true) :
    (cmap (vertContrib rid) recs).length = recs.length := by
  induction recs with
  | nil => rfl
  | cons r rs ih =>
      have hr := h r (by simp)
      have hrs : ∀ x ∈ rs, isOkVertex (mkVertex rid x) = true :=
        fun x hx => h x (by simp [hx])
      cases hm : mkVertex rid r with
      | ok v => simp [cmap, vertContrib, hm, ih hrs]
      | error e => rw [hm] at hr; simp [isOkVertex] at hr

theorem cmap_nodeErrContrib_nil (rid : Json) (recs : List Json)
    (h : ∀ r ∈ recs, isOkVertex (mkVertex rid r) = true) :
    cmap (nodeErrContrib rid) recs = [] := by
  induction recs with
  | nil => rfl
  | cons r rs ih =>
      have hr := h r (by simp)
      have hrs : ∀ x ∈ rs, isOkVertex (mkVertex rid x) = true :=
        fun x hx => h x (by simp [hx])
      cases hm : mkVertex rid r with
      | ok v => simp [cmap, nodeErrContrib, hm, ih hrs]
      | error e => rw [hm] at hr; simp [isOkVertex] at hr

theorem cmap_edgeContrib_length (rid ct : Json) (recs : List Json)
    (h : ∀ r ∈ recs, isEdgeOutcome (mkEdge rid ct r) = true) :
    (cmap (edgeContrib rid ct) recs).length = recs.length := by
  induction recs with
  | nil => rfl
  | cons r rs ih =>
      have hr := h r (by simp)
      have hrs : ∀ x ∈ rs, isEdgeOutcome (mkEdge rid ct x) = true :=
        fun x hx => h x (by simp [hx])
      cases hm : mkEdge rid ct r with
      | edge ed => simp [cmap, edgeContrib, hm, ih hrs]
      | missingEndpoint => rw [hm] at hr; simp [isEdgeOutcome] at hr
      | keyError => rw [hm] at hr; simp [isEdgeOutcome] at hr
      | valueError => rw [hm] at hr; simp [isEdgeOutcome] at hr
      | other => rw [hm] at hr; simp [isEdgeOutcome] at hr

theorem cmap_linkErrContrib_nil (rid ct : Json) (recs : List Json)
    (h : ∀ r ∈ recs, isEdgeOutcome (mkEdge rid ct r) = true) :
    cmap (linkErrContrib rid ct) recs = [] := by
  induction recs with
  | nil => rfl
  | cons r rs ih =>
      have hr := h r (by simp)
      have hrs : ∀ x ∈ rs, isEdgeOutcome (mkEdge rid ct x) = true :=
        fun x hx => h x (by simp [hx])
      cases hm : mkEdge rid ct r with
      | edge ed => simp [cmap, linkErrContrib, hm, ih hrs]
      | missingEndpoint => rw [hm] at hr; simp [isEdgeOutcome] at hr
      | keyError => rw [hm] at hr; simp [isEdgeOutcome] at hr
      | valueError => rw [hm] at hr; simp [isEdgeOutcome] at hr
      | other => rw [hm] at hr; simp [isEdgeOutcome] at hr

/-! ## Claim C3: per-entry lemmas -/

/-- A valid node entry appends exactly its record count to the vertices and
changes nothing else. -/
theorem processEntry_validNode (fs : FS) (dp hp : Option String) (st : ConvState)
    (e : Json) (hv : validNodeEntry fs dp hp e = true) :
    ∃ st', processEntry fs dp hp st e = .ok st' ∧
      st'.vertices.length = st.vertices.length + entryRecCount fs dp hp e ∧
      st'.edges = st.edges ∧
      st'.filesNotFound = st.filesNotFound ∧
      st'.jsonErrors = st.jsonErrors ∧
      st'.keyErrors = st.keyErrors := by
  cases hef : entryFields e with
  | error er => simp [validNodeEntry, hef] at hv
  | ok trip =>
      obtain ⟨ct, rid, p⟩ := trip
      cases ct with
      | str c =>
        cases p with
        | str ps =>
          simp only [validNodeEntry, hef, Bool.and_eq_true] at hv
          obtain ⟨hrid, ⟨hin, hps⟩, hfile⟩ := hv
          generalize hfs : fs (resolvePath dp hp ps) = fc at hfile
          cases fc with
          | content v =>
            cases v with
            | arr recs =>
              replace hfile : recs.all (fun r => isOkVertex (mkVertex rid r)) = true :=
                hfile
              have hall : ∀ r ∈ recs, isOkVertex (mkVertex rid r) = true :=
                fun r hr => List.all_eq_true.mp hfile r hr
              have hcond : (!truthy rid || !truthy (.str ps)) = false := by
                rw [hrid]; simp [truthy]; simpa using hps
              refine ⟨processNodes rid recs st, ?_, ?_, ?_, ?_, ?_, ?_⟩
              · simp [processEntry, hef, hcond, mapPath_str, pyContains, hin,
                      processNodeFile, hfs]
              · rw [processNodes_eq]
                simp [cmap_vertContrib_length rid recs hall, entryRecCount, hef, hfs]
              · rw [processNodes_eq]
              · rw [processNodes_eq]
              · rw [processNodes_eq]
              · rw [processNodes_eq]
                simp [cmap_nodeErrContrib_nil rid recs hall]
            | null => simp at hfile
            | bool b => simp at hfile
            | num q => simp at hfile
            | str s => simp at hfile
            | obj o => simp at hfile
          | missing => simp at hfile
          | invalidJson => simp at hfile
          | readError => simp at hfile
        | null => simp [validNodeEntry, hef] at hv
        | bool b => simp [validNodeEntry, hef] at hv
        | num q => simp [validNodeEntry, hef] at hv
        | arr xs => simp [validNodeEntry, hef] at hv
        | obj o => simp [validNodeEntry, hef] at hv
      | null => simp [validNodeEntry, hef] at hv
      | bool b => simp [validNodeEntry, hef] at hv
      | num q => simp [validNodeEntry, hef] at hv
      | arr xs => simp [validNodeEntry, hef] at hv
      | obj o => simp [validNodeEntry, hef] at hv

/-- A valid link entry appends exactly its record count to the edges and
changes nothing else. -/
theorem processEntry_validLink (fs : FS) (dp hp : Option String) (st : ConvState)
    (e : Json) (hv : validLinkEntry fs dp hp e = true) :
    ∃ st', processEntry fs dp hp st e = .ok st' ∧
      st'.edges.length = st.edges.length + entryRecCount fs dp hp e ∧
      st'.vertices = st.vertices ∧
      st'.filesNotFound = st.filesNotFound ∧
      st'.jsonErrors = st.jsonErrors ∧
      st'.keyErrors = st.keyErrors := by
  cases hef : entryFields e with
  | error er => simp [validLinkEntry, hef] at hv
  | ok trip =>
      obtain ⟨ct, rid, p⟩ := trip
      cases ct with
      | str c =>
        cases p with
        | str ps =>
          simp only [validLinkEntry, hef, Bool.and_eq_true] at hv
          obtain ⟨hrid, ⟨⟨hnotnode, hlink⟩, hps⟩, hfile⟩ := hv
          generalize hfs : fs (resolvePath dp hp ps) = fc at hfile
          cases fc with
          | content v =>
            cases v with
            | arr recs =>
              replace hfile : recs.all (fun r => isEdgeOutcome (mkEdge rid (.str c) r))
                  = true := hfile
              have hall : ∀ r ∈ recs, isEdgeOutcome (mkEdge rid (.str c) r) = true :=
                fun r hr => List.all_eq_true.mp hfile r hr
              have hcond : (!truthy rid || !truthy (.str ps)) = false := by
                rw [hrid]; simp [truthy]; simpa using hps
              have hnn : pyInStr c nodeTag = false := by simpa using hnotnode
              refine ⟨processLinks rid (.str c) recs st, ?_, ?_, ?_, ?_, ?_, ?_⟩
              · simp [processEntry, hef, hcond, mapPath_str, pyContains, hnn, hlink,
                      processLinkFile, hfs]
              · rw [processLinks_eq]
                simp [cmap_edgeContrib_length rid (.str c) recs hall,
                      entryRecCount, hef, hfs]
              · rw [processLinks_eq]
              · rw [processLinks_eq]
              · rw [processLinks_eq]
              · rw [processLinks_eq]
                simp [cmap_linkErrContrib_nil rid (.str c) recs hall]
            | null => simp at hfile
            | bool b => simp at hfile
            | num q => simp at hfile
            | str s => simp at hfile
            | obj o => simp at hfile
          | missing => simp at hfile
          | invalidJson => simp at hfile
          | readError => simp at hfile
        | null => simp [validLinkEntry, hef] at hv
        | bool b => simp [validLinkEntry, hef] at hv
        | num q => simp [validLinkEntry, hef] at hv
        | arr xs => simp [validLinkEntry, hef] at hv
        | obj o => simp [validLinkEntry, hef] at hv
      | null => simp [validLinkEntry, hef] at hv
      | bool b => simp [validLinkEntry, hef] at hv
      | num q => simp [validLinkEntry, hef] at hv
      | arr xs => simp [validLinkEntry, hef] at hv
      | obj o => simp [validLinkEntry, hef] at hv

/-- An inert entry leaves the state untouched. -/
theorem processEntry_inert (fs : FS) (dp hp : Option String) (st : ConvState)
    (e : Json) (hv : inertEntry e = true) :
    processEntry fs dp hp st e = .ok st := by
  cases hef : entryFields e with
  | error er => simp [inertEntry, hef] at hv
  | ok trip =>
      obtain ⟨ct, rid, p⟩ := trip
      by_cases hskip : (!truthy rid || !truthy p) = true
      · simp [processEntry, hef, hskip]
      · have hskip' : (!truthy rid || !truthy p) = false := by
          revert hskip; cases (!truthy rid || !truthy p) <;> simp
        simp only [inertEntry, hef, hskip', Bool.false_or] at hv
        cases ct with
        | str c =>
          cases p with
          | str ps =>
              simp only [Bool.and_eq_true] at hv
              obtain ⟨hnn, hnl⟩ := hv
              have hnn' : pyInStr c nodeTag = false := by simpa using hnn
              have hnl' : pyInStr c linkTag = false := by simpa using hnl
              simp [processEntry, hef, hskip', mapPath_str, pyContains, hnn', hnl']
          | null => simp at hv
          | bool b => simp at hv
          | num q => simp at hv
          | arr xs => simp at hv
          | obj o => simp at hv
        | null => simp at hv
        | bool b => simp at hv
        | num q => simp at hv
        | arr xs => simp at hv
        | obj o => simp at hv

/-- Node-valid and link-valid entries are mutually exclusive (the node tag
takes dispatch priority). -/
theorem validNode_not_link (fs : FS) (dp hp : Option String) (e : Json)
    (h : validNodeEntry fs dp hp e = true) :
    validLinkEntry fs dp hp e = false := by
  cases hef : entryFields e with
  | error er => simp [validLinkEntry, hef]
  | ok trip =>
      obtain ⟨ct, rid, p⟩ := trip
      cases ct with
      | str c =>
        cases p with
        | str ps =>
            simp only [validNodeEntry, hef, Bool.and_eq_true] at h
            obtain ⟨hrid, ⟨hin, _⟩, _⟩ := h
            simp [validLinkEntry, hef, hin]
        | null => simp [validNodeEntry, hef] at h
        | bool b => simp [validNodeEntry, hef] at h
        | num q => simp [validNodeEntry, hef] at h
        | arr xs => simp [validNodeEntry, hef] at h
        | obj o => simp [validNodeEntry, hef] at h
      | null => simp [validNodeEntry, hef] at h
      | bool b => simp [validNodeEntry, hef] at h
      | num q => simp [validNodeEntry, hef] at h
      | arr xs => simp [validNodeEntry, hef] at h
      | obj o => simp [validNodeEntry, hef] at h

/-- The whole pass over a list of valid (or inert) entries succeeds and
produces exactly the per-entry record totals, with all error buckets
untouched. -/
theorem runEntries_valid (fs : FS) (dp hp : Option String) (entries : List Json) :
    ∀ st : ConvState,
      (∀ e ∈ entries, validNodeEntry fs dp hp e = true ∨
        validLinkEntry fs dp hp e = true ∨ inertEntry e = true) →
      ∃ st', runEntries fs dp hp entries st = .ok st' ∧
        st'.vertices.length = st.vertices.length + nodesTotal fs dp hp entries ∧
        st'.edges.length = st.edges.length + edgesTotal fs dp hp entries ∧
        st'.filesNotFound = st.filesNotFound ∧
        st'.jsonErrors = st.jsonErrors ∧
        st'.keyErrors = st.keyErrors := by
  induction entries with
  | nil =>
      intro st _
      exact ⟨st, rfl, by simp [nodesTotal], by simp [edgesTotal], rfl, rfl, rfl⟩
  | cons e rest ih =>
      intro st hall
      have he := hall e (by simp)
      have hnt : nodesTotal fs dp hp (e :: rest)
          = (if validNodeEntry fs dp hp e = true then entryRecCount fs dp hp e else 0)
            + nodesTotal fs dp hp rest := by
        simp [nodesTotal]
      have het : edgesTotal fs dp hp (e :: rest)
          = (if validLinkEntry fs dp hp e = true then entryRecCount fs dp hp e else 0)
            + edgesTotal fs dp hp rest := by
        simp [edgesTotal]
      have hrest : ∀ x ∈ rest, validNodeEntry fs dp hp x = true ∨
          validLinkEntry fs dp hp x = true ∨ inertEntry x = true :=
        fun x hx => hall x (by simp [hx])
      cases hn : validNodeEntry fs dp hp e with
      | true =>
          obtain ⟨st1, hpe, hv1, he1, hf1, hj1, hk1⟩ :=
            processEntry_validNode fs dp hp st e hn
          obtain ⟨st2, hrun, hv2, he2, hf2, hj2, hk2⟩ := ih st1 hrest
          have hlf := validNode_not_link fs dp hp e hn
          refine ⟨st2, by simp [runEntries, hpe, hrun], ?_, ?_, ?_, ?_, ?_⟩
          · rw [hv2, hv1, hnt, if_pos hn]
            omega
          · rw [he2, he1, het, hlf]
            simp
          · rw [hf2, hf1]
          · rw [hj2, hj1]
          · rw [hk2, hk1]
      | false =>
          cases hl : validLinkEntry fs dp hp e with
          | true =>
              obtain ⟨st1, hpe, he1, hv1, hf1, hj1, hk1⟩ :=
                processEntry_validLink fs dp hp st e hl
              obtain ⟨st2, hrun, hv2, he2, hf2, hj2, hk2⟩ := ih st1 hrest
              refine ⟨st2, by simp [runEntries, hpe, hrun], ?_, ?_, ?_, ?_, ?_⟩
              · rw [hv2, hv1, hnt, hn]
                simp
              · rw [he2, he1, het, if_pos hl]
                omega
              · rw [hf2, hf1]
              · rw [hj2, hj1]
              · rw [hk2, hk1]
          | false =>
              have hi : inertEntry e = true := by
                rcases he with h | h | h
                · rw [h] at hn; cases hn
                · rw [h] at hl; cases hl
                · exact h
              have hpe := processEntry_inert fs dp hp st e hi
              obtain ⟨st2, hrun, hv2, he2, hf2, hj2, hk2⟩ := ih st hrest
              refine ⟨st2, by simp [runEntries, hpe, hrun], ?_, ?_, ?_, ?_, ?_⟩
              · rw [hv2, hnt, hn]
                simp
              · rw [he2, het, hl]
                simp
              · exact hf2
              · exact hj2
              · exact hk2

theorem any_of_lookupLast (kvs : List (String × Json)) (k : String) (v : Json)
    (h : lookupLast kvs k = some v) :
    kvs.any (fun p => p.1 == k) = true := by
  cases ha : kvs.any (fun p => p.1 == k) with
  | true => rfl
  | false =>
      have hnone : lookupLast kvs k = none := by
        rw [lookupLast, lookupLast_foldl_none]
        refine ⟨rfl, List.all_eq_true.mpr ?_⟩
        intro p hp
        have h2 : ¬(p.1 == k) = true := by
          intro hpk
          have h3 : kvs.any (fun q => q.1 == k) = true :=
            List.any_eq_true.mpr ⟨p, hp, hpk⟩
          rw [ha] at h3
          cases h3
        simp only [Bool.not_eq_true] at h2
        simp [h2]
      rw [hnone] at h
      cases h

/-- C3: for a manifest whose entries are all valid node entries, valid link
entries, or ignored entries, and whose referenced files contain only
well-formed records, the conversion writes an output document whose `nodes`
length is exactly the total record count of the node entries and whose
`edges` length is exactly the total record count of the link entries — no
deduplication, no extra elements, no dropped records. -/
theorem c3_output_counts (fs : FS) (cfg out : String) (dp hp : Option String)
    (kvs : List (String × Json)) (entries : List Json)
    (hcfg : fs cfg = .content (.obj kvs))
    (hent : lookupLast kvs "actorsDataSources" = some (.arr entries))
    (hvalid : ∀ e ∈ entries, validNodeEntry fs dp hp e = true ∨
      validLinkEntry fs dp hp e = true ∨ inertEntry e = true) :
    ∃ st, convert fs cfg out dp hp = .wrote out ⟨st.vertices, st.edges, false⟩ st ∧
      st.vertices.length = nodesTotal fs dp hp entries ∧
      st.edges.length = edgesTotal fs dp hp entries := by
  obtain ⟨st, hrun, hv, he, hf, hj, hk⟩ :=
    runEntries_valid fs dp hp entries initState hvalid
  have hany := any_of_lookupLast kvs "actorsDataSources" (.arr entries) hent
  have hv' : st.vertices.length = nodesTotal fs dp hp entries := by
    simpa [initState] using hv
  have he' : st.edges.length = edgesTotal fs dp hp entries := by
    simpa [initState] using he
  have hcond : (st.vertices.isEmpty && st.edges.isEmpty &&
      (!(st.filesNotFound == 0) || !(st.jsonErrors == 0) || !st.keyErrors.isEmpty))
        = false := by
    rw [hf, hj, hk]
    simp [initState]
  refine ⟨st, ?_, hv', he'⟩
  simp only [convert, hcfg, pyContains, hany, pyGet, hent, Option.getD_some,
    pyIter, hrun, hcond]
  rfl

/-- C3 witness: a manifest with one node entry (two records) and one link
entry (one record) yields exactly two vertices and one edge. -/
theorem c3_output_counts_witness :
    ∃ st, convert fsTwoEntries "cfg.json" "out.json" none none
        = .wrote "out.json" ⟨st.vertices, st.edges, false⟩ st ∧
      st.vertices.length = 2 ∧ st.edges.length = 1 := by
  obtain ⟨st, h1, h2, h3⟩ := c3_output_counts fsTwoEntries "cfg.json" "out.json"
    none none [("actorsDataSources", .arr twoEntries)] twoEntries rfl rfl (by decide)
  exact ⟨st, h1, h2.trans (by decide), h3.trans (by decide)⟩

end MapConverter
